import Mathlib

/-!
Verification of the `dwigradcheck` orientation-search driver
(`bin/dwigradcheck` in this repository).

The script enumerates 48 candidate gradient-table transformations
(axis flip × axis permutation × basis), applies each one to the loaded
gradient table, shells out to an external tractography evaluator, and
ranks candidates by mean streamline length.

This file embeds the script shallowly:
  * the candidate enumeration (`axis_flips`, `axis_permutations`,
    `grad_basis`, `candidates`),
  * the gradient-table transformations (`scannerGrad`, `imageGrad`),
  * the per-candidate loop body (`loopBody`) over an explicit state,
  * the result-record comparison and the final sort
    (`cmpResult`, `sortChecked`, `pySortRev`), and
  * the driver's control flow with its validation checks and the trace
    of external actions (`driver`).

Numbers are modelled as rationals: the only arithmetic the script
performs on gradient values is multiplication by plus or minus one and
negation, which are exact in binary floating point, so `ℚ` is a faithful
carrier for these operations.
-/

namespace Dwigradcheck

/-- Axis flip choice.  In the script this is an element of the Python list
`[ 'none', 0, 1, 2 ]`: either the string `'none'` or an integer axis. -/
inductive Flip where
  | none
  | axis (i : ℕ)
deriving DecidableEq

/-- Gradient basis, the Python strings `'scanner'` and `'image'`. -/
inductive Basis where
  | scanner
  | image
deriving DecidableEq

/-- An axis permutation, a Python 3-tuple of integers. -/
abbrev Perm := ℕ × ℕ × ℕ

/-- A candidate transformation: (flip, permutation, basis). -/
abbrev Cand := Flip × Perm × Basis

/-- `axis_flips = [ 'none', 0, 1, 2 ]` (dwigradcheck line 115). -/
def axis_flips : List Flip := [Flip.none, Flip.axis 0, Flip.axis 1, Flip.axis 2]

/-- `axis_permutations` (dwigradcheck line 116). -/
def axis_permutations : List Perm :=
  [(0, 1, 2), (0, 2, 1), (1, 0, 2), (1, 2, 0), (2, 0, 1), (2, 1, 0)]

/-- `grad_basis = [ 'scanner', 'image' ]` (dwigradcheck line 117). -/
def grad_basis : List Basis := [Basis.scanner, Basis.image]

/-- The candidate enumeration: the triple-nested loop of dwigradcheck
lines 123-125, flip outermost, permutation middle, basis innermost. -/
def candidates : List Cand :=
  axis_flips.flatMap fun flip =>
    axis_permutations.flatMap fun permutation =>
      grad_basis.map fun basis => (flip, permutation, basis)

/-- C2: the enumeration yields exactly 48 pairwise-distinct candidates,
its underlying set is the full Cartesian product
{none,0,1,2} × {6 permutations} × {scanner,image}, and its order is the
flip-outer / permutation-middle / basis-inner nesting (witnessed by the
explicit 48-element value of `candidates`). -/
theorem C2_candidate_enumeration :
    candidates.length = 48 ∧ candidates.Nodup ∧
    (∀ c : Cand, c ∈ candidates ↔
      (c.1 ∈ axis_flips ∧ c.2.1 ∈ axis_permutations ∧ c.2.2 ∈ grad_basis)) ∧
    candidates = [
      (Flip.none, (0, 1, 2), Basis.scanner),
      (Flip.none, (0, 1, 2), Basis.image),
      (Flip.none, (0, 2, 1), Basis.scanner),
      (Flip.none, (0, 2, 1), Basis.image),
      (Flip.none, (1, 0, 2), Basis.scanner),
      (Flip.none, (1, 0, 2), Basis.image),
      (Flip.none, (1, 2, 0), Basis.scanner),
      (Flip.none, (1, 2, 0), Basis.image),
      (Flip.none, (2, 0, 1), Basis.scanner),
      (Flip.none, (2, 0, 1), Basis.image),
      (Flip.none, (2, 1, 0), Basis.scanner),
      (Flip.none, (2, 1, 0), Basis.image),
      (Flip.axis 0, (0, 1, 2), Basis.scanner),
      (Flip.axis 0, (0, 1, 2), Basis.image),
      (Flip.axis 0, (0, 2, 1), Basis.scanner),
      (Flip.axis 0, (0, 2, 1), Basis.image),
      (Flip.axis 0, (1, 0, 2), Basis.scanner),
      (Flip.axis 0, (1, 0, 2), Basis.image),
      (Flip.axis 0, (1, 2, 0), Basis.scanner),
      (Flip.axis 0, (1, 2, 0), Basis.image),
      (Flip.axis 0, (2, 0, 1), Basis.scanner),
      (Flip.axis 0, (2, 0, 1), Basis.image),
      (Flip.axis 0, (2, 1, 0), Basis.scanner),
      (Flip.axis 0, (2, 1, 0), Basis.image),
      (Flip.axis 1, (0, 1, 2), Basis.scanner),
      (Flip.axis 1, (0, 1, 2), Basis.image),
      (Flip.axis 1, (0, 2, 1), Basis.scanner),
      (Flip.axis 1, (0, 2, 1), Basis.image),
      (Flip.axis 1, (1, 0, 2), Basis.scanner),
      (Flip.axis 1, (1, 0, 2), Basis.image),
      (Flip.axis 1, (1, 2, 0), Basis.scanner),
      (Flip.axis 1, (1, 2, 0), Basis.image),
      (Flip.axis 1, (2, 0, 1), Basis.scanner),
      (Flip.axis 1, (2, 0, 1), Basis.image),
      (Flip.axis 1, (2, 1, 0), Basis.scanner),
      (Flip.axis 1, (2, 1, 0), Basis.image),
      (Flip.axis 2, (0, 1, 2), Basis.scanner),
      (Flip.axis 2, (0, 1, 2), Basis.image),
      (Flip.axis 2, (0, 2, 1), Basis.scanner),
      (Flip.axis 2, (0, 2, 1), Basis.image),
      (Flip.axis 2, (1, 0, 2), Basis.scanner),
      (Flip.axis 2, (1, 0, 2), Basis.image),
      (Flip.axis 2, (1, 2, 0), Basis.scanner),
      (Flip.axis 2, (1, 2, 0), Basis.image),
      (Flip.axis 2, (2, 0, 1), Basis.scanner),
      (Flip.axis 2, (2, 0, 1), Basis.image),
      (Flip.axis 2, (2, 1, 0), Basis.scanner),
      (Flip.axis 2, (2, 1, 0), Basis.image)] := by
  refine ⟨by decide, by decide, ?_, by decide⟩
  rintro ⟨f, p, b⟩
  simp only [candidates, List.mem_flatMap, List.mem_map]
  constructor
  · rintro ⟨x, hx, y, hy, z, hz, h⟩
    obtain ⟨rfl, rfl, rfl⟩ : x = f ∧ y = p ∧ z = b := by
      simpa [Prod.ext_iff] using h
    exact ⟨hx, hy, hz⟩
  · rintro ⟨hf, hp, hb⟩
    exact ⟨f, hf, p, hp, b, hb, rfl⟩

/-- A gradient table: a list of rows of rationals.  The combined (MRtrix)
representation has one row of 4 values per volume; the split (FSL bvecs)
representation has 3 rows of one value per volume. -/
abbrev Table := List (List ℚ)

/-- The `multiplier` list of dwigradcheck lines 135-136:
`[ 1.0, 1.0, 1.0, 1.0 ]` with index `flip` set to `-1.0`. -/
def multiplier (flip : ℕ) : List ℚ :=
  List.set [1, 1, 1, 1] flip (-1)

/-- The scanner-basis transform, dwigradcheck lines 131-139: on a
(shallow) copy of `grad_mrtrix`, if the flip is numeric, multiply each
row elementwise by `multiplier` (Python `zip` truncates to the shorter
list); then rebuild each row as
`[ row[p0], row[p1], row[p2], row[3] ]`.  Python indexing raises on an
out-of-range index; here `getD` supplies a default, and the theorems
about this function restrict to rows of length 4, the shape of the
combined table. -/
def scannerGrad (flip : Flip) (p : Perm) (grad_mrtrix : Table) : Table :=
  let grad := grad_mrtrix
  let grad :=
    match flip with
    | Flip.none => grad
    | Flip.axis i => grad.map fun row => List.zipWith (fun r m => r * m) row (multiplier i)
  grad.map fun row => [row.getD p.1 0, row.getD p.2.1 0, row.getD p.2.2 0, row.getD 3 0]

/-- The image-basis transform, dwigradcheck lines 151-156: on a (shallow)
copy of `grad_fsl`, if the flip is numeric, replace row `flip` by its
elementwise negation (`grad[flip] = [ -v for v in grad[flip] ]`); then
rebuild the table as `[ grad[p0], grad[p1], grad[p2] ]`.  `List.set`
out of range is a no-op and `getD` supplies a default; the theorems about
this function restrict to tables of 3 rows, the shape enforced by the
length check at lines 89-90. -/
def imageGrad (flip : Flip) (p : Perm) (grad_fsl : Table) : Table :=
  let grad := grad_fsl
  let grad :=
    match flip with
    | Flip.none => grad
    | Flip.axis i => grad.set i ((grad.getD i []).map fun v => -v)
  [grad.getD p.1 [], grad.getD p.2.1 [], grad.getD p.2.2 []]

/-- Spec-side description (for the refinement claim C3): negate the
direction component in column `i` of every row, leaving the other
columns (in particular the b-value column, index 3) unchanged. -/
def specNegateColumn (i : ℕ) (t : Table) : Table :=
  t.map fun row => row.set i (-(row.getD i 0))

/-- Spec-side description: reorder the three direction columns of every
row by the permutation, keeping the b-value column (index 3) last. -/
def specPermuteColumns (p : Perm) (t : Table) : Table :=
  t.map fun row => [row.getD p.1 0, row.getD p.2.1 0, row.getD p.2.2 0, row.getD 3 0]

/-- Spec-side description of the scanner-basis transform: negate the flip
axis's direction column (if any), then permute the direction columns. -/
def specScannerTransform (flip : Flip) (p : Perm) (t : Table) : Table :=
  specPermuteColumns p
    (match flip with
     | Flip.none => t
     | Flip.axis i => specNegateColumn i t)

/-- Spec-side description: negate the row at index `i`, leaving the other
rows unchanged (positional description, not an in-place update). -/
def specNegateRow (i : ℕ) (t : Table) : Table :=
  t.mapIdx fun k row => if k = i then row.map (fun v => -v) else row

/-- Spec-side description: reorder the three rows by the permutation. -/
def specPermuteRows (p : Perm) (t : Table) : Table :=
  [t.getD p.1 [], t.getD p.2.1 [], t.getD p.2.2 []]

/-- Spec-side description of the image-basis transform: negate the flip
row (if any), then reorder the three rows by the permutation. -/
def specImageTransform (flip : Flip) (p : Perm) (t : Table) : Table :=
  specPermuteRows p
    (match flip with
     | Flip.none => t
     | Flip.axis i => specNegateRow i t)

/-- A row of length 4 is an explicit 4-element list. -/
theorem row_eq_four {row : List ℚ} (h : row.length = 4) :
    ∃ a b c d, row = [a, b, c, d] := by
  match row, h with
  | [a, b, c, d], _ => exact ⟨a, b, c, d, rfl⟩

/-- For a length-4 row and a flip axis below 3, the source's
zip-with-multiplier step agrees with the spec's negate-one-column step. -/
theorem zip_multiplier_eq_set {row : List ℚ} (h : row.length = 4)
    {i : ℕ} (hi : i < 3) :
    List.zipWith (fun r m => r * m) row (multiplier i)
      = row.set i (-(row.getD i 0)) := by
  obtain ⟨a, b, c, d, rfl⟩ := row_eq_four h
  interval_cases i <;>
    simp [multiplier, List.zipWith, List.set, mul_one, mul_neg_one]

/-- For a 3-row table and a flip axis below 3, the source's in-place row
replacement agrees with the spec's positional row negation. -/
theorem set_row_eq_mapIdx {t : Table} (h : t.length = 3)
    {i : ℕ} (hi : i < 3) :
    t.set i ((t.getD i []).map fun v => -v) = specNegateRow i t := by
  obtain ⟨x, y, z, rfl⟩ : ∃ x y z, t = [x, y, z] := by
    match t, h with
    | [x, y, z], _ => exact ⟨x, y, z, rfl⟩
  interval_cases i <;> simp [specNegateRow, List.set]

/-- Membership in `axis_flips` means: no flip, or a numeric axis below 3. -/
theorem mem_axis_flips {f : Flip} (hf : f ∈ axis_flips) :
    f = Flip.none ∨ ∃ i, i < 3 ∧ f = Flip.axis i := by
  simp only [axis_flips, List.mem_cons, List.not_mem_nil, or_false] at hf
  rcases hf with rfl | rfl | rfl | rfl
  · exact Or.inl rfl
  · exact Or.inr ⟨0, by omega, rfl⟩
  · exact Or.inr ⟨1, by omega, rfl⟩
  · exact Or.inr ⟨2, by omega, rfl⟩

/-- C3: for every candidate flip and permutation drawn from the script's
enumeration and every well-shaped loaded table, the scanner-basis
transform equals the spec's combined-table description (negate the flip
axis's direction column, b-value column unchanged, then reorder the
direction columns keeping the b-value column last), the image-basis
transform equals the spec's split-table description (negate the flip
row, then reorder the three rows), and with no flip neither branch
negates anything: both reduce to the pure permutation step. -/
theorem C3_transforms (f : Flip) (p : Perm) (gm gf : Table)
    (hf : f ∈ axis_flips)
    (hgm : ∀ row ∈ gm, row.length = 4) (hgf : gf.length = 3) :
    scannerGrad f p gm = specScannerTransform f p gm ∧
    imageGrad f p gf = specImageTransform f p gf ∧
    (f = Flip.none →
      scannerGrad f p gm = specPermuteColumns p gm ∧
      imageGrad f p gf = specPermuteRows p gf) := by
  rcases mem_axis_flips hf with rfl | ⟨i, hi, rfl⟩
  · exact ⟨rfl, rfl, fun _ => ⟨rfl, rfl⟩⟩
  · refine ⟨?_, ?_, fun h => by cases h⟩
    · simp only [scannerGrad, specScannerTransform, specPermuteColumns,
        specNegateColumn, List.map_map]
      refine List.map_congr_left fun row hrow => ?_
      simp only [Function.comp_apply]
      rw [zip_multiplier_eq_set (hgm row hrow) hi]
    · simp only [imageGrad, specImageTransform]
      rw [set_row_eq_mapIdx hgf hi]
      rfl

/-- Witness for C3 at a concrete candidate and table. -/
theorem C3_transforms_witness :
    scannerGrad (Flip.axis 1) (0, 2, 1) [[2, 3, 5, 1000]]
        = specScannerTransform (Flip.axis 1) (0, 2, 1) [[2, 3, 5, 1000]] ∧
      imageGrad (Flip.axis 1) (0, 2, 1) [[2], [3], [5]]
        = specImageTransform (Flip.axis 1) (0, 2, 1) [[2], [3], [5]] ∧
      (Flip.axis 1 = Flip.none →
        scannerGrad (Flip.axis 1) (0, 2, 1) [[2, 3, 5, 1000]]
          = specPermuteColumns (0, 2, 1) [[2, 3, 5, 1000]] ∧
        imageGrad (Flip.axis 1) (0, 2, 1) [[2], [3], [5]]
          = specPermuteRows (0, 2, 1) [[2], [3], [5]]) :=
  C3_transforms (Flip.axis 1) (0, 2, 1) [[2, 3, 5, 1000]] [[2], [3], [5]]
    (by decide) (by decide) (by decide)

/-- C8: the candidate with no flip and the identity permutation (0,1,2)
reproduces the loaded table exactly, in either basis. -/
theorem C8_identity_candidate (gm gf : Table)
    (hgm : ∀ row ∈ gm, row.length = 4) (hgf : gf.length = 3) :
    scannerGrad Flip.none (0, 1, 2) gm = gm ∧
    imageGrad Flip.none (0, 1, 2) gf = gf := by
  constructor
  · simp only [scannerGrad]
    conv_rhs => rw [← List.map_id gm]
    refine List.map_congr_left fun row hrow => ?_
    obtain ⟨a, b, c, d, rfl⟩ := row_eq_four (hgm row hrow)
    rfl
  · obtain ⟨x, y, z, rfl⟩ : ∃ x y z, gf = [x, y, z] := by
      match gf, hgf with
      | [x, y, z], _ => exact ⟨x, y, z, rfl⟩
    rfl

/-- Witness for C8 at a concrete table. -/
theorem C8_identity_candidate_witness :
    scannerGrad Flip.none (0, 1, 2) [[2, 3, 5, 1000], [7, 11, 13, 2000]]
        = [[2, 3, 5, 1000], [7, 11, 13, 2000]] ∧
      imageGrad Flip.none (0, 1, 2) [[2, 7], [3, 11], [5, 13]]
        = [[2, 7], [3, 11], [5, 13]] :=
  C8_identity_candidate [[2, 3, 5, 1000], [7, 11, 13, 2000]]
    [[2, 7], [3, 11], [5, 13]] (by decide) (by decide)

/-- One entry of the `lengths` list (dwigradcheck line 172): the Python
record `[ meanlength, flip, permutation, basis ]`. -/
structure Result where
  meanlength : ℚ
  flip : Flip
  perm : Perm
  basis : Basis
deriving DecidableEq

/-- Three-way comparison of rationals (Python comparison of the float
mean lengths, always defined). -/
def cmpQ (a b : ℚ) : Ordering :=
  if a < b then Ordering.lt else if b < a then Ordering.gt else Ordering.eq

/-- Three-way comparison of naturals (Python integer comparison). -/
def cmpNat (a b : ℕ) : Ordering :=
  if a < b then Ordering.lt else if b < a then Ordering.gt else Ordering.eq

/-- Python 3 comparison of two flip values.  Two integers compare
numerically and `'none' == 'none'`; but ordering the string `'none'`
against an integer is undefined (`TypeError` at runtime), modelled as
`Option.none`. -/
def cmpFlip : Flip → Flip → Option Ordering
  | Flip.none, Flip.none => some Ordering.eq
  | Flip.axis i, Flip.axis j => some (cmpNat i j)
  | _, _ => Option.none

/-- Python comparison of two permutation tuples (lexicographic on the
integer components, always defined). -/
def cmpPerm (p q : Perm) : Ordering :=
  match cmpNat p.1 q.1 with
  | Ordering.eq =>
    match cmpNat p.2.1 q.2.1 with
    | Ordering.eq => cmpNat p.2.2 q.2.2
    | o => o
  | o => o

/-- Python comparison of the basis strings: `'image' < 'scanner'`. -/
def cmpBasis : Basis → Basis → Ordering
  | Basis.image, Basis.scanner => Ordering.lt
  | Basis.scanner, Basis.image => Ordering.gt
  | _, _ => Ordering.eq

/-- Python list comparison of two `lengths` records
`[ meanlength, flip, permutation, basis ]`: compare mean lengths first,
then (on a tie) the flip field — which is undefined when one flip is the
string `'none'` and the other an integer — then the permutation tuple,
then the basis string. -/
def cmpResult (a b : Result) : Option Ordering :=
  match cmpQ a.meanlength b.meanlength with
  | Ordering.eq =>
    match cmpFlip a.flip b.flip with
    | Option.none => Option.none
    | some Ordering.eq =>
      some (match cmpPerm a.perm b.perm with
            | Ordering.eq => cmpBasis a.basis b.basis
            | o => o)
    | some o => some o
  | o => some o

/-- Stable insertion of a record into an ascending-sorted list, failing
if any comparison performed is undefined. -/
def insertChecked (x : Result) : List Result → Option (List Result)
  | [] => some [x]
  | y :: ys =>
    match cmpResult x y with
    | Option.none => Option.none
    | some Ordering.lt => some (x :: y :: ys)
    | some Ordering.eq => some (x :: y :: ys)
    | some Ordering.gt => (insertChecked x ys).map fun t => y :: t

/-- Model of `lengths.sort()` (dwigradcheck line 176): a stable ascending
sort by the Python record comparison, failing when a comparison it
performs is undefined.  On inputs whose records are pairwise comparable
this computes the unique stable ascending ordering (CPython list.sort is
also a stable comparison sort, hence extensionally equal there); on a
two-element incomparable list both this model and CPython fail, since
any sort must compare the two elements. -/
def sortChecked : List Result → Option (List Result)
  | [] => some []
  | x :: xs => (sortChecked xs).bind (insertChecked x)

/-- Model of `lengths.sort()` followed by `lengths.reverse()`
(dwigradcheck lines 176-177). -/
def pySortRev (l : List Result) : Option (List Result) :=
  (sortChecked l).map List.reverse

/-- Key of the flip field: any two comparable flips compare like their
keys (the `'none'`-vs-integer value of the key is never exercised, since
that pair is incomparable). -/
def flipKey : Flip → ℕ
  | Flip.none => 0
  | Flip.axis i => i + 1

/-- Key of the basis field, following `'image' < 'scanner'`. -/
def basisKey : Basis → ℕ
  | Basis.image => 0
  | Basis.scanner => 1

/-- The lexicographic key of a record: mean length first, then flip,
then the permutation components, then the basis. -/
def resultKey (r : Result) : ℚ ×ₗ (ℕ ×ₗ (ℕ ×ₗ (ℕ ×ₗ (ℕ ×ₗ ℕ)))) :=
  toLex (r.meanlength, toLex (flipKey r.flip, toLex (r.perm.1,
    toLex (r.perm.2.1, toLex (r.perm.2.2, basisKey r.basis)))))

/-- The ascending order the checked sort realises on comparable records. -/
def keyLe (a b : Result) : Prop := resultKey a ≤ resultKey b

instance : DecidableRel keyLe := fun a b =>
  inferInstanceAs (Decidable (resultKey a ≤ resultKey b))

instance : IsTotal Result keyLe := ⟨fun a b => le_total (resultKey a) (resultKey b)⟩

instance : IsTrans Result keyLe := ⟨fun _ _ _ h h2 => le_trans h h2⟩

theorem cmpQ_lt {a b : ℚ} : cmpQ a b = Ordering.lt ↔ a < b := by
  unfold cmpQ; split_ifs <;> simp_all

theorem cmpQ_gt {a b : ℚ} : cmpQ a b = Ordering.gt ↔ b < a := by
  unfold cmpQ; split_ifs with h1 h2 <;> simp_all
  exact le_of_lt h1

theorem cmpQ_eq {a b : ℚ} : cmpQ a b = Ordering.eq ↔ a = b := by
  unfold cmpQ; split_ifs with h1 h2 <;> simp_all
  · exact ne_of_lt h1
  · exact ne_of_gt h2
  · exact le_antisymm h2 h1

theorem cmpNat_lt {a b : ℕ} : cmpNat a b = Ordering.lt ↔ a < b := by
  unfold cmpNat; split_ifs <;> simp_all

theorem cmpNat_gt {a b : ℕ} : cmpNat a b = Ordering.gt ↔ b < a := by
  unfold cmpNat; split_ifs with h1 h2 <;> simp_all
  omega

theorem cmpNat_eq {a b : ℕ} : cmpNat a b = Ordering.eq ↔ a = b := by
  unfold cmpNat; split_ifs with h1 h2 <;> simp_all
  all_goals omega

theorem cmpNat_swap {a b : ℕ} : cmpNat b a = (cmpNat a b).swap := by
  unfold cmpNat; split_ifs <;> simp_all [Ordering.swap]
  all_goals omega

/-- Reversing the operands of the tuple comparison swaps its outcome. -/
theorem cmpPerm_swap {p q : Perm} : cmpPerm q p = (cmpPerm p q).swap := by
  unfold cmpPerm
  rw [show cmpNat q.1 p.1 = (cmpNat p.1 q.1).swap from cmpNat_swap,
    show cmpNat q.2.1 p.2.1 = (cmpNat p.2.1 q.2.1).swap from cmpNat_swap,
    show cmpNat q.2.2 p.2.2 = (cmpNat p.2.2 q.2.2).swap from cmpNat_swap]
  cases cmpNat p.1 q.1 <;> cases cmpNat p.2.1 q.2.1 <;> rfl

/-- A strictly smaller tuple comparison gives a strictly smaller
lexicographic key, whatever trailing keys are attached. -/
theorem lex_lt_left {α β : Type} [LT α] [LT β] {x y : α} {u v : β}
    (h : x < y) : toLex (x, u) < toLex (y, v) :=
  Prod.Lex.left u v h

theorem lex_lt_right {α β : Type} [LT α] [LT β] {x : α} {u v : β}
    (h : u < v) : toLex (x, u) < toLex (x, v) :=
  Prod.Lex.right x h

theorem perm_lt_key {p q : Perm} {x y : ℕ} (h : cmpPerm p q = Ordering.lt) :
    toLex (p.1, toLex (p.2.1, toLex (p.2.2, x)))
      < toLex (q.1, toLex (q.2.1, toLex (q.2.2, y))) := by
  unfold cmpPerm at h
  rcases h1 : cmpNat p.1 q.1 <;> rw [h1] at h
  · exact lex_lt_left (cmpNat_lt.mp h1)
  · rw [cmpNat_eq.mp h1]
    rcases h2 : cmpNat p.2.1 q.2.1 <;> rw [h2] at h
    · exact lex_lt_right (lex_lt_left (cmpNat_lt.mp h2))
    · rw [cmpNat_eq.mp h2]
      exact lex_lt_right (lex_lt_right (lex_lt_left (cmpNat_lt.mp h)))
    · exact absurd h (by simp)
  · exact absurd h (by simp)

theorem cmpPerm_eq {p q : Perm} (h : cmpPerm p q = Ordering.eq) : p = q := by
  unfold cmpPerm at h
  rcases h1 : cmpNat p.1 q.1 <;> rw [h1] at h <;>
    [skip; rcases h2 : cmpNat p.2.1 q.2.1 <;> rw [h2] at h; skip] <;>
      simp_all [cmpNat_eq, Prod.ext_iff]

theorem cmpBasis_lt {x y : Basis} :
    cmpBasis x y = Ordering.lt ↔ basisKey x < basisKey y := by
  cases x <;> cases y <;> simp [cmpBasis, basisKey]

theorem cmpBasis_eq {x y : Basis} :
    cmpBasis x y = Ordering.eq ↔ basisKey x = basisKey y := by
  cases x <;> cases y <;> simp [cmpBasis, basisKey]

theorem cmpBasis_gt {x y : Basis} :
    cmpBasis x y = Ordering.gt ↔ basisKey y < basisKey x := by
  cases x <;> cases y <;> simp [cmpBasis, basisKey]

theorem cmpFlip_lt {x y : Flip} (h : cmpFlip x y = some Ordering.lt) :
    flipKey x < flipKey y := by
  cases x <;> cases y <;> simp_all [cmpFlip, flipKey, cmpNat_lt]

theorem cmpFlip_eq {x y : Flip} (h : cmpFlip x y = some Ordering.eq) :
    flipKey x = flipKey y := by
  cases x <;> cases y <;> simp_all [cmpFlip, flipKey, cmpNat_eq]

theorem cmpFlip_gt {x y : Flip} (h : cmpFlip x y = some Ordering.gt) :
    flipKey y < flipKey x := by
  cases x <;> cases y <;> simp_all [cmpFlip, flipKey, cmpNat_gt]

/-- A defined record comparison decides the lexicographic key ordering:
`lt` means strictly smaller key, `eq` means equal key, `gt` means
strictly larger key. -/
theorem cmpResult_some {a b : Result} {o : Ordering}
    (h : cmpResult a b = some o) :
    (o = Ordering.lt → resultKey a < resultKey b) ∧
    (o = Ordering.eq → resultKey a = resultKey b) ∧
    (o = Ordering.gt → resultKey b < resultKey a) := by
  unfold cmpResult at h
  rcases hq : cmpQ a.meanlength b.meanlength with _ | _ | _ <;> rw [hq] at h
  · -- mean lengths strictly increase: key strictly smaller
    obtain rfl : o = Ordering.lt := by simpa using h.symm
    refine ⟨fun _ => ?_, by simp, by simp⟩
    simp only [resultKey]
    exact lex_lt_left (cmpQ_lt.mp hq)
  · -- mean lengths tie: fall through to the flip field
    have hml : a.meanlength = b.meanlength := cmpQ_eq.mp hq
    rcases hf : cmpFlip a.flip b.flip with _ | of <;> rw [hf] at h
    · exact absurd h (by simp)
    · cases of with
      | lt =>
        obtain rfl : o = Ordering.lt := by simpa using h.symm
        refine ⟨fun _ => ?_, by simp, by simp⟩
        simp only [resultKey]
        rw [hml]
        exact lex_lt_right (lex_lt_left (cmpFlip_lt hf))
      | gt =>
        obtain rfl : o = Ordering.gt := by simpa using h.symm
        refine ⟨by simp, by simp, fun _ => ?_⟩
        simp only [resultKey]
        rw [hml]
        exact lex_lt_right (lex_lt_left (cmpFlip_gt hf))
      | eq =>
        have hfk : flipKey a.flip = flipKey b.flip := cmpFlip_eq hf
        obtain rfl : o = (match cmpPerm a.perm b.perm with
            | Ordering.eq => cmpBasis a.basis b.basis
            | o => o) := by simpa using h.symm
        rcases hp : cmpPerm a.perm b.perm with _ | _ | _
        · refine ⟨fun _ => ?_, by simp [hp], by simp [hp]⟩
          simp only [resultKey]
          rw [hml, hfk]
          exact lex_lt_right (lex_lt_right (perm_lt_key hp))
        · -- permutations tie as well: the basis string decides
          have hpp : a.perm = b.perm := cmpPerm_eq hp
          rcases hbb : cmpBasis a.basis b.basis with _ | _ | _
          · refine ⟨fun _ => ?_, by simp [hp, hbb], by simp [hp, hbb]⟩
            simp only [resultKey]
            rw [hml, hfk, hpp]
            exact lex_lt_right (lex_lt_right (lex_lt_right (lex_lt_right
              (lex_lt_right (cmpBasis_lt.mp hbb)))))
          · refine ⟨by simp [hp, hbb], fun _ => ?_, by simp [hp, hbb]⟩
            simp only [resultKey]
            rw [hml, hfk, hpp, cmpBasis_eq.mp hbb]
          · refine ⟨by simp [hp, hbb], by simp [hp, hbb], fun _ => ?_⟩
            simp only [resultKey]
            rw [hml, hfk, hpp]
            exact lex_lt_right (lex_lt_right (lex_lt_right (lex_lt_right
              (lex_lt_right (cmpBasis_gt.mp hbb)))))
        · refine ⟨by simp [hp], by simp [hp], fun _ => ?_⟩
          simp only [resultKey]
          rw [hml, hfk]
          refine lex_lt_right (lex_lt_right (perm_lt_key ?_))
          rw [cmpPerm_swap, hp]
          rfl
  · -- mean lengths strictly decrease: key strictly larger
    obtain rfl : o = Ordering.gt := by simpa using h.symm
    refine ⟨by simp, by simp, fun _ => ?_⟩
    simp only [resultKey]
    exact lex_lt_left (cmpQ_gt.mp hq)

/-- On records pairwise comparable with the inserted one, the checked
insertion computes Mathlib's `orderedInsert` for the key order. -/
theorem insertChecked_eq_orderedInsert (x : Result) (ys : List Result)
    (h : ∀ y ∈ ys, (cmpResult x y).isSome) :
    insertChecked x ys = some (List.orderedInsert keyLe x ys) := by
  induction ys with
  | nil => rfl
  | cons y ys ih =>
    have hy : (cmpResult x y).isSome := h y (by simp)
    rcases ho : cmpResult x y with _ | o
    · rw [ho] at hy; simp at hy
    · have hk := cmpResult_some ho
      cases o with
      | lt =>
        have : keyLe x y := le_of_lt (hk.1 rfl)
        simp [insertChecked, ho, List.orderedInsert, if_pos this]
      | eq =>
        have : keyLe x y := le_of_eq (hk.2.1 rfl)
        simp [insertChecked, ho, List.orderedInsert, if_pos this]
      | gt =>
        have : ¬ keyLe x y := not_le.mpr (hk.2.2 rfl)
        rw [insertChecked, ho, List.orderedInsert, if_neg this,
          ih fun z hz => h z (List.mem_cons_of_mem y hz)]
        rfl

/-- On pairwise-comparable inputs the checked sort succeeds and computes
Mathlib's stable insertion sort for the key order. -/
theorem sortChecked_eq_insertionSort (l : List Result)
    (h : ∀ a ∈ l, ∀ b ∈ l, (cmpResult a b).isSome) :
    sortChecked l = some (List.insertionSort keyLe l) := by
  induction l with
  | nil => rfl
  | cons x xs ih =>
    rw [sortChecked, ih fun a ha b hb =>
      h a (List.mem_cons_of_mem x ha) b (List.mem_cons_of_mem x hb)]
    rw [Option.some_bind]
    rw [insertChecked_eq_orderedInsert x (List.insertionSort keyLe xs)
      fun y hy => h x (List.mem_cons_self x xs) y
        (List.mem_cons_of_mem x
          ((List.perm_insertionSort keyLe xs).mem_iff.mp hy))]
    rfl

/-- A key comparison bounds the mean lengths: the first lexicographic
component of the key is the mean length. -/
theorem keyLe_meanlength {a b : Result} (h : keyLe a b) :
    a.meanlength ≤ b.meanlength := by
  unfold keyLe resultKey at h
  rw [Prod.Lex.le_iff] at h
  rcases h with h | ⟨h, _⟩
  · exact le_of_lt h
  · exact le_of_eq h

/-- C1 (amended): on a results list whose records are pairwise comparable,
the modelled `lengths.sort(); lengths.reverse()` succeeds and returns a
permutation of the results that is sorted by mean length descending; but
among results with exactly equal mean length the order is DESCENDING in
the record comparison of (flip, permutation, basis) — the reverse of
ascending record order — not the generation order claimed. -/
theorem C1_sort_descending (l : List Result)
    (h : ∀ a ∈ l, ∀ b ∈ l, (cmpResult a b).isSome) :
    ∃ out, pySortRev l = some out ∧ out.Perm l ∧
      out.Pairwise (fun a b => keyLe b a) ∧
      out.Pairwise (fun a b => b.meanlength ≤ a.meanlength) := by
  refine ⟨(List.insertionSort keyLe l).reverse, ?_, ?_, ?_, ?_⟩
  · rw [pySortRev, sortChecked_eq_insertionSort l h]
    rfl
  · exact ((List.insertionSort keyLe l).reverse_perm).trans
      (List.perm_insertionSort keyLe l)
  · rw [List.pairwise_reverse]
    exact List.sorted_insertionSort keyLe l
  · rw [List.pairwise_reverse]
    exact (List.sorted_insertionSort keyLe l).imp fun hab => keyLe_meanlength hab

/-- Witness for the amended C1 at a concrete results list containing an
exact mean-length tie between two comparable records. -/
theorem C1_sort_descending_witness :
    ∃ out,
      pySortRev [⟨7, Flip.axis 2, (0, 1, 2), Basis.scanner⟩,
          ⟨7, Flip.axis 0, (1, 0, 2), Basis.image⟩,
          ⟨9, Flip.axis 1, (2, 1, 0), Basis.scanner⟩] = some out ∧
        out.Perm [⟨7, Flip.axis 2, (0, 1, 2), Basis.scanner⟩,
          ⟨7, Flip.axis 0, (1, 0, 2), Basis.image⟩,
          ⟨9, Flip.axis 1, (2, 1, 0), Basis.scanner⟩] ∧
        out.Pairwise (fun a b => keyLe b a) ∧
        out.Pairwise (fun a b => b.meanlength ≤ a.meanlength) :=
  C1_sort_descending _ (by decide)

/-- C1 (counterexample to the claim as stated): two results with exactly
equal mean length, where the first is generated strictly earlier in the
enumeration than the second (smaller index in `candidates`); the sorted
report nevertheless lists the later-generated one first, because
`sort(); reverse()` orders equal-mean-length ties by DESCENDING record
comparison, not by generation order. -/
theorem C1_generation_order_counterexample :
    (⟨5, Flip.axis 0, (0, 1, 2), Basis.scanner⟩ : Result).meanlength
        = (⟨5, Flip.axis 0, (0, 2, 1), Basis.scanner⟩ : Result).meanlength ∧
      List.indexOf (Flip.axis 0, ((0 : ℕ), (1 : ℕ), (2 : ℕ)), Basis.scanner)
          candidates
        < List.indexOf (Flip.axis 0, ((0 : ℕ), (2 : ℕ), (1 : ℕ)), Basis.scanner)
          candidates ∧
      pySortRev [⟨5, Flip.axis 0, (0, 1, 2), Basis.scanner⟩,
          ⟨5, Flip.axis 0, (0, 2, 1), Basis.scanner⟩]
        = some [⟨5, Flip.axis 0, (0, 2, 1), Basis.scanner⟩,
            ⟨5, Flip.axis 0, (0, 1, 2), Basis.scanner⟩] := by
  refine ⟨rfl, by decide, by decide⟩

/-- C9: the sort of the results list is NOT total.  At an exact
mean-length tie between a flip of `'none'` and an integer flip, the
record comparison the sort performs is undefined (in Python 3 the
expression `'none' < 0` raises `TypeError`), and on a two-element list —
which any sort must compare — the modelled sort fails. -/
theorem C9_sort_tie_undefined :
    cmpResult ⟨3, Flip.none, (0, 1, 2), Basis.scanner⟩
        ⟨3, Flip.axis 0, (0, 1, 2), Basis.scanner⟩ = Option.none ∧
      pySortRev [⟨3, Flip.none, (0, 1, 2), Basis.scanner⟩,
          ⟨3, Flip.axis 0, (0, 1, 2), Basis.scanner⟩] = Option.none := by
  refine ⟨by decide, by decide⟩

/-- The command-line arguments of interest (dwigradcheck lines 18-34). -/
structure Args where
  input : String
  grad : Option String
  fslgrad : Option (String × String)
  export_grad_mrtrix : Option String
  export_grad_fsl : Option (String × String)
  mask : Option String
  number : Int

/-- The parts of the run fixed by the environment rather than by the
script: the parsed `size` header field of the input image, the parsed
contents of the two gradient-table files after the conversion steps of
lines 61-85, and the mean streamline length the external
`tckgen`/`tckstats` pipeline reports for each candidate. -/
structure Env where
  dims : List Int
  grad_mrtrix : Table
  grad_fsl : Table
  meanLength : Flip → Perm → Basis → ℚ

/-- The failure kinds of the driver (spec section 7).  The script raises
them through `app.error`, with `uncaughtTypeError` standing for the
Python `TypeError` escaping from an undefined sort comparison. -/
inductive Err where
  | invalidInput (msg : String)
  | mutuallyExclusive
  | gradMismatch (msg : String)
  | uncaughtTypeError
deriving DecidableEq

/-- Externally visible actions of the driver, in program order. -/
inductive Act where
  | queryHeader
  | makeTempDir
  | copyToTemp (src dst : String)
  | gotoTempDir
  | run (cmd : String)
  | readTables
  | writeGrad (path : String) (contents : Table)
deriving DecidableEq

/-- Modelled from the spec: the mutual-exclusivity enforcement of
`app.cmdline.flagMutuallyExclusiveOptions` / `app.parse` (dwigradcheck
lines 32-34) lives in the `mrtrix3.app` library, which is not part of
this slice; per the spec it "fails with MutuallyExclusiveOptionError if
both are given", for the `-grad`/`-fslgrad` pair and for the
`-export_grad_mrtrix`/`-export_grad_fsl` pair, during argument parsing
and hence before anything else runs. -/
def parseCheck (a : Args) : Option Err :=
  if a.grad.isSome ∧ a.fslgrad.isSome then some Err.mutuallyExclusive
  else if a.export_grad_mrtrix.isSome ∧ a.export_grad_fsl.isSome then
    some Err.mutuallyExclusive
  else Option.none

/-- Python's `min` over a list of integers (empty list excluded). -/
def listMin : List Int → Option Int
  | [] => Option.none
  | x :: xs =>
    some (match listMin xs with
          | Option.none => x
          | some m => min x m)

/-- The gradient-table shape checks of dwigradcheck lines 86-90: the
combined table must have one row per volume, and the split table must
have 3 rows whose FIRST row has one value per volume (the second and
third rows are not inspected, mirroring the short-circuit
`not len(grad_fsl) == 3 or not len(grad_fsl[0]) == num_volumes`). -/
def checkTables (grad_mrtrix grad_fsl : Table) (num_volumes : Int) : Option Err :=
  if (grad_mrtrix.length : Int) ≠ num_volumes then
    some (Err.gradMismatch
      ("Number of entries in gradient table does not match number of DWI volumes"))
  else if grad_fsl.length ≠ 3 ∨ ((grad_fsl.headD []).length : Int) ≠ num_volumes then
    some (Err.gradMismatch ("Internal error (inconsistent gradient table storage)"))
  else Option.none

/-- The `suffix` string of dwigradcheck line 127. -/
def flipStr : Flip → String
  | Flip.none => "none"
  | Flip.axis i => toString i

def suffixStr (f : Flip) (p : Perm) (b : Basis) : String :=
  "_flip" ++ flipStr f ++ "_perm" ++ toString p.1 ++ toString p.2.1
    ++ toString p.2.2 ++ "_"
    ++ (match b with
        | Basis.scanner => "scanner"
        | Basis.image => "image")

/-- The gradient-option fragment handed to `tckgen` for a candidate
(dwigradcheck lines 147 and 163). -/
def grad_option_of : Cand → String
  | (f, p, Basis.scanner) => " -grad grad" ++ suffixStr f p Basis.scanner ++ ".b"
  | (f, p, Basis.image) => " -fslgrad bvecs" ++ suffixStr f p Basis.image ++ " bvals"

/-- `number_option` of dwigradcheck line 98. -/
def number_option (number : Int) : String :=
  " -select " ++ toString number

/-- The `tckgen` command of dwigradcheck line 166. -/
def tckgenCmd (grad_option suffix : String) (number : Int) : String :=
  "tckgen -algorithm tensor_det data.mif" ++ grad_option
    ++ " -seed_image mask.mif -mask mask.mif" ++ number_option number
    ++ " -minlength 0 -downsample 5 tracks" ++ suffix ++ ".tck"

/-- The `tckstats` command of dwigradcheck line 169. -/
def tckstatsCmd (suffix : String) : String :=
  "tckstats tracks" ++ suffix ++ ".tck -output mean -ignorezero"

/-- The actions one candidate iteration performs, computed from the
tables held in the loop state at that iteration (dwigradcheck lines
127-169): write the transformed gradient table to its uniquely named
scratch file, run `tckgen`, run `tckstats`. -/
def candActs (number : Int) (gm gf : Table) : Cand → List Act
  | (f, p, Basis.scanner) =>
    [Act.writeGrad ("grad" ++ suffixStr f p Basis.scanner ++ ".b")
        (scannerGrad f p gm),
      Act.run (tckgenCmd (grad_option_of (f, p, Basis.scanner))
        (suffixStr f p Basis.scanner) number),
      Act.run (tckstatsCmd (suffixStr f p Basis.scanner))]
  | (f, p, Basis.image) =>
    [Act.writeGrad ("bvecs" ++ suffixStr f p Basis.image)
        (imageGrad f p gf),
      Act.run (tckgenCmd (grad_option_of (f, p, Basis.image))
        (suffixStr f p Basis.image) number),
      Act.run (tckstatsCmd (suffixStr f p Basis.image))]

/-- The record appended to `lengths` for one candidate (line 172). -/
def entryOf (e : Env) (c : Cand) : Result :=
  ⟨e.meanLength c.1 c.2.1 c.2.2, c.1, c.2.1, c.2.2⟩

/-- The mutable state of the candidate loop: the two tables loaded at
lines 74-85 (`grad = copy.copy(...)` takes a shallow copy, every
transformation step rebinds `grad` to a freshly built list, and the
image-branch `grad[flip] = ...` assigns a fresh list into the copy, so
the loop body leaves both loaded tables untouched), the accumulating
`lengths` list, and the trace of actions performed so far. -/
structure LoopState where
  grad_mrtrix : Table
  grad_fsl : Table
  lengths : List Result
  acts : List Act

/-- One iteration of the candidate loop (dwigradcheck lines 123-172). -/
def loopBody (e : Env) (number : Int) (st : LoopState) (c : Cand) : LoopState :=
  { grad_mrtrix := st.grad_mrtrix, grad_fsl := st.grad_fsl,
    lengths := st.lengths ++ [entryOf e c],
    acts := st.acts ++ candActs number st.grad_mrtrix st.grad_fsl c }

/-- The loop's initial state: tables as loaded, nothing yet done. -/
def initState (e : Env) : LoopState :=
  ⟨e.grad_mrtrix, e.grad_fsl, [], []⟩

/-- The state after running the whole candidate loop. -/
def loopFinal (e : Env) (number : Int) : LoopState :=
  candidates.foldl (loopBody e number) (initState e)

/-- The prologue actions before the candidate loop, once the dimension
checks have passed (dwigradcheck lines 43-95): scratch-area creation,
the memory-mappable conversion, the import copies, the mask conversion,
moving into the scratch area, the format conversions, loading the two
tables, and mask derivation if no mask was given. -/
def prologueActs (a : Args) : List Act :=
  [Act.queryHeader, Act.makeTempDir,
    Act.run ("mrconvert " ++ a.input ++ " data.mif -stride 0,0,0,1 -datatype float32")]
  ++ (match a.grad with
      | some g => [Act.copyToTemp g ("grad.b")]
      | Option.none =>
        match a.fslgrad with
        | some (bvecs, bvals) =>
          [Act.copyToTemp bvecs ("bvecs"), Act.copyToTemp bvals ("bvals")]
        | Option.none => [])
  ++ (match a.mask with
      | some m => [Act.run ("mrconvert " ++ m ++ " mask.mif -datatype bit")]
      | Option.none => [])
  ++ [Act.gotoTempDir]
  ++ (match a.grad with
      | some _ => []
      | Option.none =>
        match a.fslgrad with
        | some _ => [Act.run ("mrinfo data.mif -fslgrad bvecs bvals -export_grad_mrtrix grad.b")]
        | Option.none => [Act.run ("mrinfo data.mif -export_grad_mrtrix grad.b")])
  ++ (match a.fslgrad with
      | some _ => []
      | Option.none => [Act.run ("mrinfo data.mif -grad grad.b -export_grad_fsl bvecs bvals")])
  ++ [Act.readTables]

/-- The mask-derivation step of dwigradcheck lines 94-95, performed only
when no mask file was provided. -/
def maskActs (a : Args) : List Act :=
  match a.mask with
  | some _ => []
  | Option.none => [Act.run ("dwi2mask data.mif mask.mif")]

/-- The export step of dwigradcheck lines 192-204: only when an export
option was given, re-read the best candidate's scratch table and export
it in the requested format. -/
def exportActs (a : Args) (ranked : List Result) : List Act :=
  let grad_export_option :=
    match a.export_grad_mrtrix with
    | some path => " -export_grad_mrtrix " ++ path
    | Option.none =>
      match a.export_grad_fsl with
      | some (bvecs, bvals) => " -export_grad_fsl " ++ bvecs ++ " " ++ bvals
      | Option.none => ""
  if grad_export_option = "" then []
  else
    let best := ranked.headD ⟨0, Flip.none, (0, 1, 2), Basis.scanner⟩
    let suffix := suffixStr best.flip best.perm best.basis
    let grad_import_option :=
      match best.basis with
      | Basis.scanner => " -grad grad" ++ suffix ++ ".b"
      | Basis.image => " -fslgrad bvecs" ++ suffix ++ " bvals"
    [Act.run ("mrinfo data.mif" ++ grad_import_option ++ grad_export_option)]

/-- The driver's outcome: the trace of actions performed, the error it
aborted with (if any), and the ranked report (if it got that far). -/
structure DriverOut where
  acts : List Act
  err : Option Err
  ranking : Option (List Result)
deriving DecidableEq

/-- The driver (dwigradcheck lines 16-207): parse (with the
mutual-exclusivity constraints), query and validate the image
dimensions, create the scratch area and convert/derive both gradient
table representations, validate their shapes, run the 48-candidate loop,
sort the results, and export the winner on request. -/
def driver (a : Args) (e : Env) : DriverOut :=
  match parseCheck a with
  | some err => ⟨[], some err, Option.none⟩
  | Option.none =>
    if e.dims.length ≠ 4 then
      ⟨[Act.queryHeader], some (Err.invalidInput ("Input image must be a 4D image")),
        Option.none⟩
    else if listMin e.dims = some 1 then
      ⟨[Act.queryHeader],
        some (Err.invalidInput
          ("Cannot perform tractography on an image with a unity spatial dimension")),
        Option.none⟩
    else
      match checkTables e.grad_mrtrix e.grad_fsl (e.dims.getD 3 0) with
      | some err => ⟨prologueActs a, some err, Option.none⟩
      | Option.none =>
        match pySortRev (loopFinal e a.number).lengths with
        | Option.none =>
          ⟨prologueActs a ++ maskActs a ++ (loopFinal e a.number).acts,
            some Err.uncaughtTypeError, Option.none⟩
        | some ranked =>
          ⟨prologueActs a ++ maskActs a ++ (loopFinal e a.number).acts
              ++ exportActs a ranked,
            Option.none, some ranked⟩

/-- The loop body never changes the two loaded tables held in the state. -/
theorem foldl_loopBody_tables (e : Env) (n : Int) (cs : List Cand)
    (st : LoopState) :
    (cs.foldl (loopBody e n) st).grad_mrtrix = st.grad_mrtrix ∧
    (cs.foldl (loopBody e n) st).grad_fsl = st.grad_fsl := by
  induction cs generalizing st with
  | nil => exact ⟨rfl, rfl⟩
  | cons c cs ih => exact ih _

/-- The loop's action trace: each candidate contributes the actions
computed from the tables as they were at the start of the loop. -/
theorem foldl_loopBody_acts (e : Env) (n : Int) (cs : List Cand)
    (st : LoopState) :
    (cs.foldl (loopBody e n) st).acts
      = st.acts ++ cs.flatMap (candActs n st.grad_mrtrix st.grad_fsl) := by
  induction cs generalizing st with
  | nil => simp
  | cons c cs ih =>
    rw [List.foldl_cons, ih]
    simp [loopBody, List.append_assoc]

/-- The loop's `lengths` list: one record per candidate, in order. -/
theorem foldl_loopBody_lengths (e : Env) (n : Int) (cs : List Cand)
    (st : LoopState) :
    (cs.foldl (loopBody e n) st).lengths = st.lengths ++ cs.map (entryOf e) := by
  induction cs generalizing st with
  | nil => simp
  | cons c cs ih =>
    rw [List.foldl_cons, ih]
    simp [loopBody, List.append_assoc]

/-- C7: the loaded gradient tables are never mutated by the candidate
loop — after any number of iterations the state still holds the
load-time tables element for element — and consequently every
candidate's scratch write (and every command of its iteration) is
computed from the ORIGINAL loaded tables, not from a previous
candidate's output; the recorded `lengths` list is likewise one entry
per candidate of the enumeration. -/
theorem C7_tables_never_mutated (e : Env) (n : Int) (k : ℕ) :
    ((candidates.take k).foldl (loopBody e n) (initState e)).grad_mrtrix
        = e.grad_mrtrix ∧
      ((candidates.take k).foldl (loopBody e n) (initState e)).grad_fsl
        = e.grad_fsl ∧
      (loopFinal e n).acts
        = candidates.flatMap (candActs n e.grad_mrtrix e.grad_fsl) ∧
      (loopFinal e n).lengths = candidates.map (entryOf e) := by
  refine ⟨(foldl_loopBody_tables e n (candidates.take k) (initState e)).1,
    (foldl_loopBody_tables e n (candidates.take k) (initState e)).2, ?_, ?_⟩
  · rw [loopFinal, foldl_loopBody_acts]
    rfl
  · rw [loopFinal, foldl_loopBody_lengths]
    rfl

/-- A lower bound on every element is a lower bound on the minimum. -/
theorem listMin_ge {c : Int} : ∀ {l : List Int}, (∀ x ∈ l, c ≤ x) →
    ∀ m, listMin l = some m → c ≤ m := by
  intro l
  induction l with
  | nil => intro _ m hm; simp [listMin] at hm
  | cons x xs ih =>
    intro h m hm
    rw [listMin] at hm
    rcases hx : listMin xs with _ | m2 <;> rw [hx] at hm <;>
      obtain rfl := Option.some_injective _ hm
    · exact h x (List.mem_cons_self x xs)
    · exact le_min (h x (List.mem_cons_self x xs))
        (ih (fun y hy => h y (List.mem_cons_of_mem x hy)) m2 hx)

/-- If 1 occurs in the list and bounds it below, it is the minimum. -/
theorem listMin_eq_one : ∀ {l : List Int}, (1 : Int) ∈ l →
    (∀ x ∈ l, 1 ≤ x) → listMin l = some 1 := by
  intro l
  induction l with
  | nil => intro h1; simp at h1
  | cons x xs ih =>
    intro h1 h2
    rw [listMin]
    rcases List.mem_cons.mp h1 with rfl | hmem
    · rcases hx : listMin xs with _ | m
      · rfl
      · have hm : (1 : Int) ≤ m :=
          listMin_ge (fun y hy => h2 y (List.mem_cons_of_mem _ hy)) m hx
        show some (min 1 m) = some 1
        rw [min_eq_left hm]
    · rw [ih hmem fun y hy => h2 y (List.mem_cons_of_mem x hy)]
      have hx1 : (1 : Int) ≤ x := h2 x (List.mem_cons_self x xs)
      show some (min x 1) = some 1
      rw [min_eq_right hx1]

/-- C4: under an otherwise valid invocation, an input image whose header
is not 4-D, or one of whose (positive) spatial dimensions does not
exceed 1, makes the driver fail with an invalid-input error while the
trace holds only the header query: no scratch area and no scratch
artifact is ever created.  (Image header dimensions are voxel counts,
hence at least 1; the script's test is literally `min(dims) == 1`.) -/
theorem C4_invalid_image (a : Args) (e : Env)
    (hparse : parseCheck a = Option.none)
    (hpos : ∀ d ∈ e.dims, 1 ≤ d)
    (hbad : e.dims.length ≠ 4 ∨ ∃ i, i < 3 ∧ e.dims.getD i 2 ≤ 1) :
    (∃ msg, (driver a e).err = some (Err.invalidInput msg)) ∧
      (driver a e).acts = [Act.queryHeader] ∧
      Act.makeTempDir ∉ (driver a e).acts ∧
      ∀ p t, Act.writeGrad p t ∉ (driver a e).acts := by
  by_cases h4 : e.dims.length = 4
  · obtain ⟨i, hi, hle⟩ : ∃ i, i < 3 ∧ e.dims.getD i 2 ≤ 1 := by
      rcases hbad with h | h
      · exact absurd h4 h
      · exact h
    have hilen : i < e.dims.length := by omega
    have hmem : e.dims.getD i 2 ∈ e.dims := by
      rw [List.getD_eq_getElem e.dims 2 hilen]
      exact List.getElem_mem hilen
    have h1 : (1 : Int) ∈ e.dims := by
      have := hpos _ hmem
      have : e.dims.getD i 2 = 1 := le_antisymm hle this
      rw [← this]; exact hmem
    have hmin : listMin e.dims = some 1 := listMin_eq_one h1 hpos
    have hne : ¬ e.dims.length ≠ 4 := by omega
    refine ⟨⟨"Cannot perform tractography on an image with a unity spatial dimension",
      ?_⟩, ?_, ?_, ?_⟩ <;>
      simp [driver, hparse, hne, hmin]
  · have : e.dims.length ≠ 4 := h4
    refine ⟨⟨"Input image must be a 4D image", ?_⟩, ?_, ?_, ?_⟩ <;>
      simp [driver, hparse, this]

/-- Witness for C4: a 4-D image with a unity first spatial dimension. -/
theorem C4_invalid_image_witness :
    (∃ msg,
        (driver ⟨"dwi.mif", Option.none, Option.none, Option.none, Option.none,
            Option.none, 10000⟩
          ⟨[1, 64, 64, 30], [], [], fun _ _ _ => 0⟩).err
          = some (Err.invalidInput msg)) ∧
      (driver ⟨"dwi.mif", Option.none, Option.none, Option.none, Option.none,
          Option.none, 10000⟩
        ⟨[1, 64, 64, 30], [], [], fun _ _ _ => 0⟩).acts = [Act.queryHeader] ∧
      Act.makeTempDir ∉
        (driver ⟨"dwi.mif", Option.none, Option.none, Option.none, Option.none,
            Option.none, 10000⟩
          ⟨[1, 64, 64, 30], [], [], fun _ _ _ => 0⟩).acts ∧
      ∀ p t, Act.writeGrad p t ∉
        (driver ⟨"dwi.mif", Option.none, Option.none, Option.none, Option.none,
            Option.none, 10000⟩
          ⟨[1, 64, 64, 30], [], [], fun _ _ _ => 0⟩).acts :=
  C4_invalid_image _ _ (by decide)
    (by intro d hd; fin_cases hd <;> omega)
    (Or.inr ⟨0, by omega, by decide⟩)

/-- C5: conflicting option pairs — both exports, or both imports — make
the run fail with the mutual-exclusivity error at argument parsing, with
an empty action trace: in particular before any external tool runs. -/
theorem C5_mutually_exclusive (a : Args) (e : Env)
    (h : (a.export_grad_mrtrix.isSome ∧ a.export_grad_fsl.isSome) ∨
      (a.grad.isSome ∧ a.fslgrad.isSome)) :
    (driver a e).err = some Err.mutuallyExclusive ∧
      (driver a e).acts = [] ∧
      ∀ cmd, Act.run cmd ∉ (driver a e).acts := by
  have hp : parseCheck a = some Err.mutuallyExclusive := by
    unfold parseCheck
    rcases h with ⟨h1, h2⟩ | ⟨h1, h2⟩
    · by_cases hg : a.grad.isSome ∧ a.fslgrad.isSome
      · rw [if_pos hg]
      · rw [if_neg hg, if_pos ⟨h1, h2⟩]
    · rw [if_pos ⟨h1, h2⟩]
  refine ⟨?_, ?_, ?_⟩ <;> simp [driver, hp]

/-- Witness for C5: both export options supplied at once. -/
theorem C5_mutually_exclusive_witness :
    (driver ⟨"dwi.mif", Option.none, Option.none, some "out.b",
        some ("bvecs_out", "bvals_out"), Option.none, 10000⟩
      ⟨[2, 64, 64, 30], [], [], fun _ _ _ => 0⟩).err
        = some Err.mutuallyExclusive ∧
      (driver ⟨"dwi.mif", Option.none, Option.none, some "out.b",
          some ("bvecs_out", "bvals_out"), Option.none, 10000⟩
        ⟨[2, 64, 64, 30], [], [], fun _ _ _ => 0⟩).acts = [] ∧
      ∀ cmd, Act.run cmd ∉
        (driver ⟨"dwi.mif", Option.none, Option.none, some "out.b",
            some ("bvecs_out", "bvals_out"), Option.none, 10000⟩
          ⟨[2, 64, 64, 30], [], [], fun _ _ _ => 0⟩).acts :=
  C5_mutually_exclusive _ _ (Or.inl (by decide))

/-- The prologue never writes a transformed gradient table. -/
theorem writeGrad_not_mem_prologue (a : Args) (p : String) (t : Table) :
    Act.writeGrad p t ∉ prologueActs a := by
  unfold prologueActs
  cases hg : a.grad <;> cases hf : a.fslgrad <;> cases hm : a.mask <;>
    simp [hg, hf, hm]

/-- C6 (amended): once both table representations are loaded, the run
fails with a gradient-mismatch error — before any candidate table is
written — exactly when the combined table's row count differs from the
volume count, or the split table's row count differs from 3, or its
FIRST row's length differs from the volume count; the second and third
split rows are never inspected. -/
theorem C6_table_shape_check (a : Args) (e : Env)
    (hparse : parseCheck a = Option.none)
    (h4 : e.dims.length = 4)
    (hmin : listMin e.dims ≠ some 1)
    (hbad : (e.grad_mrtrix.length : Int) ≠ e.dims.getD 3 0 ∨
      e.grad_fsl.length ≠ 3 ∨
        ((e.grad_fsl.headD []).length : Int) ≠ e.dims.getD 3 0) :
    (∃ msg, (driver a e).err = some (Err.gradMismatch msg)) ∧
      (driver a e).ranking = Option.none ∧
      (∀ p t, Act.writeGrad p t ∉ (driver a e).acts) ∧
      (∀ gm gf nv, checkTables gm gf nv = Option.none ↔
        ((gm.length : Int) = nv ∧ gf.length = 3 ∧
          ((gf.headD []).length : Int) = nv)) := by
  have hne : ¬ e.dims.length ≠ 4 := by omega
  obtain ⟨msg, hmsg⟩ : ∃ msg,
      checkTables e.grad_mrtrix e.grad_fsl (e.dims.getD 3 0)
        = some (Err.gradMismatch msg) := by
    unfold checkTables
    by_cases hA : (e.grad_mrtrix.length : Int) ≠ e.dims.getD 3 0
    · exact ⟨_, by rw [if_pos hA]⟩
    · have hB : e.grad_fsl.length ≠ 3 ∨
          ((e.grad_fsl.headD []).length : Int) ≠ e.dims.getD 3 0 := by tauto
      exact ⟨_, by rw [if_neg hA, if_pos hB]⟩
  have hmsg2 : checkTables e.grad_mrtrix e.grad_fsl (e.dims[3]?.getD 0)
      = some (Err.gradMismatch msg) := by simpa using hmsg
  refine ⟨⟨msg, ?_⟩, ?_, ?_, ?_⟩
  · simp [driver, hparse, hne, hmin, hmsg2]
  · simp [driver, hparse, hne, hmin, hmsg2]
  · intro p t
    have hacts : (driver a e).acts = prologueActs a := by
      simp [driver, hparse, hne, hmin, hmsg2]
    rw [hacts]
    exact writeGrad_not_mem_prologue a p t
  · intro gm gf nv
    unfold checkTables
    split_ifs with hA hB
    · refine iff_of_false (by simp) ?_
      rintro ⟨h1, _⟩; exact hA h1
    · refine iff_of_false (by simp) ?_
      rintro ⟨h1, h2, h3⟩
      rcases hB with hB | hB
      · exact hB h2
      · exact hB h3
    · push_neg at hA hB
      exact iff_of_true rfl ⟨hA, hB.1, hB.2⟩

/-- Witness for C6 (amended): a combined table of 3 rows against 5
volumes trips the mismatch error. -/
theorem C6_table_shape_check_witness :
    (∃ msg,
        (driver ⟨"dwi.mif", Option.none, Option.none, Option.none, Option.none,
            Option.none, 10000⟩
          ⟨[2, 2, 2, 5], [[0, 0, 0, 1], [0, 0, 0, 1], [0, 0, 0, 1]],
            [[0, 0, 0], [0, 0, 0], [0, 0, 0]], fun _ _ _ => 0⟩).err
          = some (Err.gradMismatch msg)) ∧
      (driver ⟨"dwi.mif", Option.none, Option.none, Option.none, Option.none,
          Option.none, 10000⟩
        ⟨[2, 2, 2, 5], [[0, 0, 0, 1], [0, 0, 0, 1], [0, 0, 0, 1]],
          [[0, 0, 0], [0, 0, 0], [0, 0, 0]], fun _ _ _ => 0⟩).ranking
        = Option.none ∧
      (∀ p t, Act.writeGrad p t ∉
        (driver ⟨"dwi.mif", Option.none, Option.none, Option.none, Option.none,
            Option.none, 10000⟩
          ⟨[2, 2, 2, 5], [[0, 0, 0, 1], [0, 0, 0, 1], [0, 0, 0, 1]],
            [[0, 0, 0], [0, 0, 0], [0, 0, 0]], fun _ _ _ => 0⟩).acts) ∧
      (∀ gm gf nv, checkTables gm gf nv = Option.none ↔
        ((gm.length : Int) = nv ∧ gf.length = 3 ∧
          ((gf.headD []).length : Int) = nv)) :=
  C6_table_shape_check _ _ (by decide) (by decide) (by decide)
    (Or.inl (by decide))

/-- C6 (counterexample to the claim as stated): a split table whose
SECOND row has the wrong number of values passes the shape check —
the code only inspects the row count and the first row's length — so
the run does not fail although the split row/column counts disagree
with 3 rows of one value per volume. -/
theorem C6_second_row_unchecked_counterexample :
    checkTables [[0, 0, 0, 1], [0, 0, 0, 1]] [[0, 0], [0], [0, 0]] 2
        = Option.none ∧
      ([[(0 : ℚ), 0], [0], [0, 0]] : Table).length = 3 ∧
      ∃ row ∈ ([[(0 : ℚ), 0], [0], [0, 0]] : Table), row.length ≠ 2 := by
  refine ⟨by decide, by decide, [(0 : ℚ)], by decide, by decide⟩

/-- The driver's error outcome does not depend on the `-number` option:
two invocations agreeing on everything the validation logic reads
produce the same error outcome. -/
theorem driver_err_indep (a b : Args) (e : Env)
    (hg : a.grad = b.grad) (hf : a.fslgrad = b.fslgrad)
    (hem : a.export_grad_mrtrix = b.export_grad_mrtrix)
    (hef : a.export_grad_fsl = b.export_grad_fsl) :
    (driver a e).err = (driver b e).err := by
  have hl : ∀ k : Int, (loopFinal e k).lengths = candidates.map (entryOf e) := by
    intro k
    rw [loopFinal, foldl_loopBody_lengths]
    rfl
  unfold driver
  have hp : parseCheck a = parseCheck b := by
    unfold parseCheck
    rw [hg, hf, hem, hef]
  rw [hp]
  cases hq : parseCheck b with
  | some err => rfl
  | none =>
    split_ifs with h4 hmin
    · rfl
    · rfl
    · cases hc : checkTables e.grad_mrtrix e.grad_fsl (e.dims.getD 3 0) with
      | some err => rfl
      | none =>
        rw [hl a.number, hl b.number]
        cases hr : pySortRev (candidates.map (entryOf e)) <;> rfl

/-- C10: the `-number` streamline budget is not validated beyond integer
parsing — the driver's error outcome is the same for every integer value
of the option, zero and negatives included — and the value is passed
verbatim as the `-select` argument of the `tckgen` command of every
candidate iteration. -/
theorem C10_number_not_validated (a : Args) (e : Env) (n m : Int) :
    (driver { a with number := n } e).err
        = (driver { a with number := m } e).err ∧
      ∀ c ∈ candidates,
        Act.run (tckgenCmd (grad_option_of c) (suffixStr c.1 c.2.1 c.2.2) n)
          ∈ (loopFinal e n).acts := by
  constructor
  · exact driver_err_indep _ _ e rfl rfl rfl rfl
  · intro c hc
    have hacts : (loopFinal e n).acts
        = candidates.flatMap (candActs n e.grad_mrtrix e.grad_fsl) := by
      rw [loopFinal, foldl_loopBody_acts]
      rfl
    rw [hacts]
    refine List.mem_flatMap.mpr ⟨c, hc, ?_⟩
    rcases c with ⟨f, p, b⟩
    cases b <;> simp [candActs]

/-- Witness for C10 at a negative streamline budget. -/
theorem C10_number_not_validated_witness :
    (driver { (⟨"dwi.mif", Option.none, Option.none, Option.none, Option.none,
          Option.none, 10000⟩ : Args) with number := (-7 : Int) }
        ⟨[2, 2, 2, 2], [[0, 0, 0, 1], [0, 0, 0, 1]],
          [[0, 0], [0, 0], [0, 0]], fun _ _ _ => 0⟩).err
      = (driver { (⟨"dwi.mif", Option.none, Option.none, Option.none,
            Option.none, Option.none, 10000⟩ : Args) with
            number := (10000 : Int) }
          ⟨[2, 2, 2, 2], [[0, 0, 0, 1], [0, 0, 0, 1]],
            [[0, 0], [0, 0], [0, 0]], fun _ _ _ => 0⟩).err ∧
      Act.run (tckgenCmd
          (grad_option_of (Flip.none, (0, 1, 2), Basis.scanner))
          (suffixStr Flip.none (0, 1, 2) Basis.scanner) (-7))
        ∈ (loopFinal
            ⟨[2, 2, 2, 2], [[0, 0, 0, 1], [0, 0, 0, 1]],
              [[0, 0], [0, 0], [0, 0]], fun _ _ _ => 0⟩ (-7)).acts :=
  ⟨(C10_number_not_validated
      ⟨"dwi.mif", Option.none, Option.none, Option.none, Option.none,
        Option.none, 10000⟩
      ⟨[2, 2, 2, 2], [[0, 0, 0, 1], [0, 0, 0, 1]],
        [[0, 0], [0, 0], [0, 0]], fun _ _ _ => 0⟩ (-7) 10000).1,
    (C10_number_not_validated
      ⟨"dwi.mif", Option.none, Option.none, Option.none, Option.none,
        Option.none, 10000⟩
      ⟨[2, 2, 2, 2], [[0, 0, 0, 1], [0, 0, 0, 1]],
        [[0, 0], [0, 0], [0, 0]], fun _ _ _ => 0⟩ (-7) 10000).2
      (Flip.none, (0, 1, 2), Basis.scanner) (by decide)⟩

end Dwigradcheck
